import Mathlib

/-!
Verification of the moodle-manager-prototype orchestration core.

The Go source is shallowly embedded: pure computations (the pull-progress
aggregator `calculateOverallProgress`, the log credential extractor
`ExtractCredentials`) become executable Lean functions over `Int`/`ℚ` and
`List Char`; the effectful orchestrator entry points (`App.RunMoodle`,
`App.StopMoodle`, `Manager.PullImageWithProgress`) become functions over an
explicit environment record describing the outcome of each external call,
returning the result together with the trace of external calls issued.
-/

set_option maxHeartbeats 1000000

namespace MoodleManager

/-! ### Progress aggregator (src/docker/progress.go)

`LayerProgress` mirrors the Go struct of the same name; byte counters are
`int64` in Go, modelled as `Int` (the sums involved stay far below 2^63 for
any realistic pull, so wrap-around is immaterial). -/

structure LayerProgress where
  id : String
  status : String
  downloadCurrent : Int
  downloadTotal : Int
  extractCurrent : Int
  extractTotal : Int
deriving DecidableEq, Repr

/-- `layer.Status == "Already exists"` (progress.go:302). -/
def isCachedLayer (l : LayerProgress) : Bool :=
  l.status == "Already exists"

/-- `layer.Status` is `"Pull complete"` or `"Download complete"` (progress.go:304). -/
def isCompletedLayer (l : LayerProgress) : Bool :=
  l.status == "Pull complete" || l.status == "Download complete"

/-- `hasMeaningfulDownload := layer.DownloadTotal > 1` (progress.go:314). -/
def hasMeaningfulDownload (l : LayerProgress) : Bool :=
  decide (1 < l.downloadTotal)

/-- `hasMeaningfulExtract := layer.ExtractTotal > 1` (progress.go:315). -/
def hasMeaningfulExtract (l : LayerProgress) : Bool :=
  decide (1 < l.extractTotal)

/-- Layer contributes to the download byte totals (progress.go:312-321). -/
def countsBytesDl (l : LayerProgress) : Bool :=
  !isCachedLayer l && hasMeaningfulDownload l

/-- Layer contributes to the extract byte totals (progress.go:312-328). -/
def countsBytesEx (l : LayerProgress) : Bool :=
  !isCachedLayer l && hasMeaningfulExtract l

def cachedCount (ls : List LayerProgress) : Nat :=
  ls.countP isCachedLayer

def completedCount (ls : List LayerProgress) : Nat :=
  ls.countP isCompletedLayer

/-- `layersWithMeaningfulBytes` (progress.go:317-328): a non-cached layer is
counted once if it has meaningful download data or meaningful extract data. -/
def meaningfulCount (ls : List LayerProgress) : Nat :=
  ls.countP fun l => !isCachedLayer l && (hasMeaningfulDownload l || hasMeaningfulExtract l)

def totalDownloadBytes (ls : List LayerProgress) : Int :=
  (ls.map fun l => if countsBytesDl l then l.downloadTotal else 0).sum

def currentDownloadBytes (ls : List LayerProgress) : Int :=
  (ls.map fun l => if countsBytesDl l then l.downloadCurrent else 0).sum

def totalExtractBytes (ls : List LayerProgress) : Int :=
  (ls.map fun l => if countsBytesEx l then l.extractTotal else 0).sum

def currentExtractBytes (ls : List LayerProgress) : Int :=
  (ls.map fun l => if countsBytesEx l then l.extractCurrent else 0).sum

/-- `completedLayersWithoutBytes` (progress.go:389-395). -/
def completedNoByteCount (ls : List LayerProgress) : Nat :=
  ls.countP fun l =>
    isCompletedLayer l && !(l.status == "Already exists")
      && decide (l.downloadTotal ≤ 1) && decide (l.extractTotal ≤ 1)

/-- `actualWorkLayers := totalLayers - cachedLayers` (progress.go:333). -/
def actualWorkLayers (ls : List LayerProgress) : Int :=
  (ls.length : Int) - (cachedCount ls : Int)

/-- Weighted byte progress: download 60%, extract 40% (progress.go:368-380). -/
def byteProgress (ls : List LayerProgress) : ℚ :=
  (if 0 < totalDownloadBytes ls then
      (currentDownloadBytes ls : ℚ) / (totalDownloadBytes ls : ℚ) * 60 else 0)
  + (if 0 < totalExtractBytes ls then
      (currentExtractBytes ls : ℚ) / (totalExtractBytes ls : ℚ) * 40 else 0)

/-- Mixed byte/count blending (progress.go:384-409). -/
def blendedProgress (ls : List LayerProgress) : ℚ :=
  if (meaningfulCount ls : Int) < actualWorkLayers ls then
    if 0 < actualWorkLayers ls - (meaningfulCount ls : Int) then
      byteProgress ls * ((meaningfulCount ls : ℚ) / ((actualWorkLayers ls : Int) : ℚ))
      + ((completedNoByteCount ls : ℚ)
            / ((actualWorkLayers ls - (meaningfulCount ls : Int) : Int) : ℚ) * 100)
        * (((actualWorkLayers ls - (meaningfulCount ls : Int) : Int) : ℚ)
            / ((actualWorkLayers ls : Int) : ℚ))
    else byteProgress ls
  else byteProgress ls

/-- `calculateOverallProgress` (progress.go:289-422), with Go `float64`
arithmetic modelled over `ℚ` (the literal `0.3` is `3/10`).  Note the final
guard clamps only values above 100 (progress.go:412-414). -/
def calculateOverallProgress (ls : List LayerProgress) : ℚ :=
  if ls.length = 0 then 0
  else if cachedCount ls = ls.length then 100
  else if completedCount ls + cachedCount ls = ls.length then 100
  else if ¬ ((0 < totalDownloadBytes ls ∨ 0 < totalExtractBytes ls) ∧
        (2 ≤ meaningfulCount ls ∨
          (3 : ℚ)/10 < (meaningfulCount ls : ℚ) / ((actualWorkLayers ls : Int) : ℚ))) then
    (if 0 < actualWorkLayers ls then
        (completedCount ls : ℚ) / ((actualWorkLayers ls : Int) : ℚ) * 100 else 0)
  else
    min (blendedProgress ls) 100

/-- `getOverallStatus` (progress.go:425-477). -/
def getOverallStatus (ls : List LayerProgress) : String :=
  let downloadingCount := ls.countP fun l => l.status == "Downloading"
  let extractingCount := ls.countP fun l => l.status == "Extracting"
  let completeCount := ls.countP isCompletedLayer
  let cachedC := ls.countP isCachedLayer
  let preparingCount := ls.countP fun l =>
    l.status == "Preparing" || l.status == "Waiting" || l.status == "Pulling fs layer"
  let totalLayers := ls.length
  let workLayers := totalLayers - cachedC
  let workCompleted := completeCount
  if cachedC = totalLayers ∧ 0 < totalLayers then "Image already available"
  else if 0 < downloadingCount then
    s!"Downloading layers ({workCompleted}/{workLayers} completed)"
  else if 0 < extractingCount then
    s!"Extracting layers ({workCompleted}/{workLayers} completed)"
  else if workCompleted = workLayers ∧ 0 < workLayers then "Pull complete"
  else if 0 < preparingCount then "Initializing download..."
  else "Starting download..."

/-- One decoded structured record of the pull stream: the Go
`DockerPullEvent` after `json.Unmarshal` (progress.go:16-28); the unused
`Progress` text field is omitted. -/
structure PullEvent where
  status : String
  id : String
  error : String
  current : Int
  total : Int
deriving DecidableEq, Repr

/-- Status-directed layer update of `processEvent` (progress.go:256-278). -/
def updateLayer (l : LayerProgress) (e : PullEvent) : LayerProgress :=
  let l1 : LayerProgress := { l with status := e.status }
  if e.status = "Downloading" then
    (if 0 < e.total then { l1 with downloadCurrent := e.current, downloadTotal := e.total } else l1)
  else if e.status = "Extracting" then
    (if 0 < e.total then { l1 with extractCurrent := e.current, extractTotal := e.total } else l1)
  else if e.status = "Pull complete" then
    { l1 with downloadCurrent := l1.downloadTotal, extractCurrent := l1.extractTotal }
  else if e.status = "Already exists" then
    { l1 with downloadCurrent := l1.downloadTotal, extractCurrent := l1.extractTotal }
  else l1

/-- `processEvent` (progress.go:229-286) on the unit-state map, modelled as the
list of layer states in insertion order (every aggregate is
iteration-order independent).  Returns the new state and, when the event is
not an error record, the `(percentage, status)` notification delivered to
every observer; an event with `ID == ""` notifies the sentinel `-1`. -/
def processEvent (st : List LayerProgress) (e : PullEvent) :
    List LayerProgress × Option (ℚ × String) :=
  if e.error ≠ "" then (st, none)
  else if e.id = "" then (st, some (-1, e.status))
  else
    let st' :=
      if st.any fun l => l.id == e.id then
        st.map fun l => if l.id == e.id then updateLayer l e else l
      else
        st ++ [updateLayer ⟨e.id, "", 0, 0, 0, 0⟩ e]
    (st', some (calculateOverallProgress st', getOverallStatus st'))

/-- Unit-state maps reachable by a sequence of structured records. -/
def applyEvents (es : List PullEvent) : List LayerProgress :=
  es.foldl (fun st e => (processEvent st e).1) []

/-! ### Credential extractor (src/unnamed part: docker/logs.go, `LogParser`)

`ExtractCredentials` runs two Go regexps over the whole log text:

  passwordRegex = `(?:Generated admin password:|Password:)\s*(.+)`
  urlRegex      = `Moodle is available at:\s*(.+)`

and `strings.TrimSpace`s the first submatch of the leftmost match of each.
Both regexps are of the shape `(m1|m2|...)\s*(.+)`; we model RE2's
leftmost-first matching of that shape directly on `List Char`:
at each start position the alternatives are tried in order; after a matching
marker, `\s*` greedily consumes RE2 whitespace (`[\t\n\f\r ]`) and `(.+)`
then takes (at least one, greedily up to the next newline) non-`'\n'`
characters, backtracking over the `\s*` run when nothing follows it. -/

/-- RE2 `\s` = `[\t\n\f\r ]` (note: no vertical tab). -/
def isWS (c : Char) : Bool :=
  c == ' ' || c == '\t' || c == '\n' || c == '\r' || c == '\x0c'

/-- `unicode.IsSpace`, the class trimmed by Go `strings.TrimSpace`:
ASCII whitespace including `'\v'`, plus NEL, NBSP and the Unicode space
code points. -/
def goSpace (c : Char) : Bool :=
  c == ' ' || c == '\t' || c == '\n' || c == '\x0b' || c == '\x0c' || c == '\r'
  || c.val == 0x85 || c.val == 0xA0 || c.val == 0x1680
  || (0x2000 ≤ c.val && c.val ≤ 0x200A)
  || c.val == 0x2028 || c.val == 0x2029 || c.val == 0x202F
  || c.val == 0x205F || c.val == 0x3000

/-- Go `strings.TrimSpace` on a character list. -/
def trimGo (l : List Char) : List Char :=
  ((l.dropWhile goSpace).reverse.dropWhile goSpace).reverse

/-- The `\s*(.+)` part of the regexps, applied to the text following a matched
marker: greedy whitespace run, then a greedy non-empty run of non-newline
characters, backtracking into the whitespace run if the text ends inside it.
Returns the captured group, or `none` when `(.+)` cannot match. -/
def captureAfter (t : List Char) : Option (List Char) :=
  if (t.takeWhile isWS).length < t.length then
    some ((t.drop (t.takeWhile isWS).length).takeWhile fun c => c ≠ '\n')
  else
    match t.reverse.dropWhile (fun c => c = '\n') with
    | [] => none
    | c :: _ => some [c]

/-- Try the alternative markers, in order, at the current start position. -/
def tryMarkers (ms : List (List Char)) (t : List Char) : Option (List Char) :=
  match ms with
  | [] => none
  | m :: rest =>
    if m.isPrefixOf t then
      match captureAfter (t.drop m.length) with
      | some cap => some cap
      | none => tryMarkers rest t
    else tryMarkers rest t

/-- Leftmost-first search: the first start position at which some marker
followed by `\s*(.+)` matches yields the captured group. -/
def scanFor (ms : List (List Char)) : List Char → Option (List Char)
  | [] => none
  | c :: r =>
    match tryMarkers ms (c :: r) with
    | some cap => some cap
    | none => scanFor ms r

def pwMarker1 : List Char := "Generated admin password:".data

def pwMarker2 : List Char := "Password:".data

def urlMarker : List Char := "Moodle is available at:".data

/-- `CredentialInfo` (logs.go). -/
structure CredentialInfo where
  Password : String
  URL : String
deriving DecidableEq, Repr

/-- `LogParser.ExtractCredentials` (logs.go:30-44): each field is the
`TrimSpace`d first submatch of its regexp, or `""` when there is no match. -/
def ExtractCredentials (logs : String) : CredentialInfo :=
  { Password := String.mk (((scanFor [pwMarker1, pwMarker2] logs.data).map trimGo).getD [])
    URL := String.mk (((scanFor [urlMarker] logs.data).map trimGo).getD []) }

/-- `CredentialInfo.IsComplete` (logs.go:47-49). -/
def IsComplete (ci : CredentialInfo) : Bool :=
  ci.Password != "" && ci.URL != ""

/-- The concrete credential lines of the spec's testable properties. -/
def pwLine : List Char := "Generated admin password: Sw0rdFish!".data

/-- The concrete endpoint line of the spec's testable properties. -/
def urlLine : List Char := "Moodle is available at: http://localhost:8080".data

/-- A log text assembled from lines, joined by newlines. -/
def joinLines : List (List Char) → List Char
  | [] => []
  | [l] => l
  | l :: ls => l ++ '\n' :: joinLines ls

/-- An "unrelated" line: one containing none of the three marker phrases of
the two regexps. -/
def Unrelated (l : List Char) : Prop :=
  ¬ pwMarker1 <:+: l ∧ ¬ pwMarker2 <:+: l ∧ ¬ urlMarker <:+: l

instance (l : List Char) : Decidable (Unrelated l) := by
  unfold Unrelated
  infer_instance

/-- A marker occurrence followed somewhere by a non-`\s` character: the
shape of input on which a regexp of the form `(markers)\s*(.+)` produces a
match whose trimmed capture is non-empty. -/
def MarkerHitWitness (m t : List Char) : Prop :=
  ∃ u v, t = u ++ m ++ v ∧ ∃ c ∈ v, isWS c = false

/-! ### Error model (src/unnamed part: errors package)

Only the error categories the orchestration claims distinguish are kept;
the message strings carried by the Go errors are irrelevant to control flow
and collapsed to the wrapped tool output/underlying message. -/

/-- A manager-level failure: `ValidationError` (malformed image name or
container id) or `DockerError` (non-zero exit of an external command,
i.e. "ExternalToolError" in the spec), tagged with the operation name and
carrying the underlying message. -/
inductive MErr where
  | validation (field reason : String)
  | docker (operation msg : String)
deriving DecidableEq, Repr

deriving instance DecidableEq for Except

/-- `errors.ValidateContainerID` (errors.go:306-318): non-empty and at least
12 characters. -/
def validateContainerIDFmt (containerID : String) : Except MErr Unit :=
  if containerID = "" then
    .error (.validation "containerID" "cannot be empty")
  else if containerID.length < 12 then
    .error (.validation "containerID" "too short (minimum 12 characters)")
  else .ok ()

/-- `errors.ValidateImageName` (errors.go:321-332): non-empty and at least
3 characters. -/
def validateImageNameFmt (imageName : String) : Except MErr Unit :=
  if imageName = "" then
    .error (.validation "imageName" "cannot be empty")
  else if imageName.length < 3 then
    .error (.validation "imageName" "too short")
  else .ok ()

/-! ### Lifecycle manager (src/docker/manager.go)

Each manager operation spawns one external `docker` process; the
environment records the outcome of each such process for the run being
analysed, and every operation returns its result together with the list of
external calls it issued (in order). -/

/-- External calls observable in a run: docker child processes and
persistent-store writes. -/
inductive Call where
  | imageList
  | pull
  | runContainer
  | start
  | stop
  | kill
  | inspect
  | inspectState
  | logs
  | saveContainerID
  | deleteContainerID
  | clearCredentials
deriving DecidableEq, Repr

/-- Outcomes of the external commands a single orchestration run may issue.
`Except String α` is the command's result: `.error msg` models a non-zero
exit (with combined output `msg`), `.ok` a zero exit with its parsed
output. -/
structure DockerEnv where
  imageName : String
  imagesOutput : Except String String
  pullResult : Except String Unit
  runOutput : Except String String
  startResult : Except String Unit
  stopResult : Except String Unit
  killResult : Except String Unit
  inspectResult : Except String Unit
  inspectStateOutput : Except String String

/-- `Manager.CheckImageExists` (manager.go:37-57): validates the configured
name, runs `docker images --format ...` and substring-matches the name in
the combined output. -/
def mgrCheckImageExists (env : DockerEnv) : Except MErr Bool × List Call :=
  if env.imageName = "" then
    (.error (.validation "imageName" "no image name set in Docker manager"), [])
  else
    match validateImageNameFmt env.imageName with
    | .error e => (.error e, [])
    | .ok _ =>
      match env.imagesOutput with
      | .error out => (.error (.docker "check" out), [.imageList])
      | .ok out => (.ok (decide (env.imageName.data <:+: out.data)), [.imageList])

/-- `Manager.StartContainer` (manager.go:200-214). -/
def mgrStartContainer (env : DockerEnv) (containerID : String) :
    Except MErr Unit × List Call :=
  match validateContainerIDFmt containerID with
  | .error e => (.error e, [])
  | .ok _ =>
    match env.startResult with
    | .error out => (.error (.docker "start" out), [.start])
    | .ok _ => (.ok (), [.start])

/-- `Manager.StopContainer` (manager.go:217-231). -/
def mgrStopContainer (env : DockerEnv) (containerID : String) :
    Except MErr Unit × List Call :=
  match validateContainerIDFmt containerID with
  | .error e => (.error e, [])
  | .ok _ =>
    match env.stopResult with
    | .error out => (.error (.docker "stop" out), [.stop])
    | .ok _ => (.ok (), [.stop])

/-- `Manager.ForceStopContainer` (manager.go:325-339): `docker kill`. -/
def mgrForceStopContainer (env : DockerEnv) (containerID : String) :
    Except MErr Unit × List Call :=
  match validateContainerIDFmt containerID with
  | .error e => (.error e, [])
  | .ok _ =>
    match env.killResult with
    | .error out => (.error (.docker "kill" out), [.kill])
    | .ok _ => (.ok (), [.kill])

/-- `Manager.IsContainerRunning` (manager.go:234-249):
`docker inspect --format={{.State.Running}}`, output compared to "true"
after trimming. -/
def mgrIsContainerRunning (env : DockerEnv) (containerID : String) :
    Except MErr Bool × List Call :=
  match validateContainerIDFmt containerID with
  | .error e => (.error e, [])
  | .ok _ =>
    match env.inspectStateOutput with
    | .error out => (.error (.docker "inspect" out), [.inspectState])
    | .ok out => (.ok (String.mk (trimGo out.data) == "true"), [.inspectState])

/-- `Manager.ValidateContainerID` (manager.go:306-322): format check, then a
plain `docker inspect` to confirm the container exists. -/
def mgrValidateContainerID (env : DockerEnv) (containerID : String) :
    Except MErr Unit × List Call :=
  match validateContainerIDFmt containerID with
  | .error e => (.error e, [])
  | .ok _ =>
    match env.inspectResult with
    | .error out => (.error (.docker "inspect" out), [.inspect])
    | .ok _ => (.ok (), [.inspect])

/-- `Manager.RunContainer` (manager.go:170-197): `docker run -d -p 8080:8080`,
stdout trimmed and validated as the new container id. -/
def mgrRunContainer (env : DockerEnv) : Except MErr String × List Call :=
  if env.imageName = "" then
    (.error (.validation "imageName" "no image name set in Docker manager"), [])
  else
    match validateImageNameFmt env.imageName with
    | .error e => (.error e, [])
    | .ok _ =>
      match env.runOutput with
      | .error out => (.error (.docker "run" out), [.runContainer])
      | .ok out =>
        let containerID := String.mk (trimGo out.data)
        match validateContainerIDFmt containerID with
        | .error e => (.error e, [.runContainer])
        | .ok _ => (.ok containerID, [.runContainer])

/-- The additional process plumbing of `Manager.PullImageWithProgress`
(manager.go:82-167): outcomes of the two pipe setups, the `Start` call, the
`Wait` exit status, and of the two concurrent stream-processing goroutines
(`none` = stream processed without error). -/
structure PullEnv where
  imageName : String
  stdoutPipe : Except String Unit
  stderrPipe : Except String Unit
  startCmd : Except String Unit
  waitResult : Except String Unit
  streamErr1 : Option String
  streamErr2 : Option String

/-- `Manager.PullImageWithProgress` (manager.go:82-167).  Returns the
result together with the list of warnings logged for stream-processing
failures (manager.go:157-163); note that after a zero exit these failures
are only logged and the function returns success. -/
def mgrPullImageWithProgress (penv : PullEnv) : Except MErr Unit × List String :=
  if penv.imageName = "" then
    (.error (.validation "imageName" "no image name set in Docker manager"), [])
  else
    match validateImageNameFmt penv.imageName with
    | .error e => (.error e, [])
    | .ok _ =>
      match penv.stdoutPipe with
      | .error e => (.error (.docker "pull_setup" e), [])
      | .ok _ =>
        match penv.stderrPipe with
        | .error e => (.error (.docker "pull_setup" e), [])
        | .ok _ =>
          match penv.startCmd with
          | .error e => (.error (.docker "pull_start" e), [])
          | .ok _ =>
            match penv.waitResult with
            | .error e => (.error (.docker "pull" e), [])
            | .ok _ =>
              (.ok (), (penv.streamErr1.toList ++ penv.streamErr2.toList).map
                fun e => s!"Stream processing warning: {e}")

/-! ### Readiness orchestrator (src/unnamed part: app.go) -/

/-- Results of `App.RunMoodle` distinguished by the claims. -/
inductive RunErr where
  | alreadyRunning
  | startFailed (e : MErr)
  | noImageName
  | checkImageFailed (e : MErr)
  | pullFailed (e : MErr)
  | runContainerFailed (e : MErr)
  | saveFailed (e : String)
deriving DecidableEq, Repr

/-- The persistent-store / app-level outcomes of one `RunMoodle` or
`StopMoodle` invocation. -/
structure AppEnv where
  denv : DockerEnv
  penv : PullEnv
  containerIDFileExists : Bool
  loadContainerID : Except String String
  clearCredsResult : Except String Unit
  saveContainerIDResult : Except String Unit

/-- The brand-new-instance path of `App.RunMoodle` (app.go:567-636): image
name required, image existence check, conditional pull with progress,
best-effort credential clearing, `docker run`, persist the new id.  `t0` is
the trace accumulated before entering this path. -/
def firstTimeSetup (env : AppEnv) (t0 : List Call) : Except RunErr Unit × List Call :=
  if env.denv.imageName = "" then (.error .noImageName, t0)
  else
    match mgrCheckImageExists env.denv with
    | (.error e, tc) => (.error (.checkImageFailed e), t0 ++ tc)
    | (.ok imageExists, tc) =>
      let pullStep : Except RunErr Unit × List Call :=
        if imageExists then (.ok (), t0 ++ tc)
        else
          match mgrPullImageWithProgress env.penv with
          | (.error e, _) => (.error (.pullFailed e), t0 ++ tc ++ [.pull])
          | (.ok _, _) => (.ok (), t0 ++ tc ++ [.pull])
      match pullStep with
      | (.error e, t1) => (.error e, t1)
      | (.ok _, t1) =>
        -- credential clearing is best-effort: failures only logged (app.go:608-611)
        let t2 := t1 ++ [.clearCredentials]
        match mgrRunContainer env.denv with
        | (.error e, tr) => (.error (.runContainerFailed e), t2 ++ tr)
        | (.ok _, tr) =>
          match env.saveContainerIDResult with
          | .error e => (.error (.saveFailed e), t2 ++ tr ++ [.saveContainerID])
          | .ok _ =>
            -- readiness waiting runs on a detached goroutine; RunMoodle returns nil
            (.ok (), t2 ++ tr ++ [.saveContainerID])

/-- `App.RunMoodle` (app.go:527-637).  With a persisted container id that
loads, an `IsContainerRunning` success gates on the running flag:
running → `alreadyRunning` error; stopped → `StartContainer`, whose failure
is returned to the caller.  A failing load or a failing running-check falls
through (with a logged warning) to the brand-new path. -/
def runMoodle (env : AppEnv) : Except RunErr Unit × List Call :=
  if env.containerIDFileExists then
    match env.loadContainerID with
    | .ok containerID =>
      match mgrIsContainerRunning env.denv containerID with
      | (.ok true, t1) => (.error .alreadyRunning, t1)
      | (.ok false, t1) =>
        match mgrStartContainer env.denv containerID with
        | (.error e, ts) => (.error (.startFailed e), t1 ++ ts)
        | (.ok _, ts) => (.ok (), t1 ++ ts)
      | (.error _, t1) => firstTimeSetup env t1
    | .error _ => firstTimeSetup env []
  else firstTimeSetup env []

/-- Results of `App.StopMoodle` distinguished by the claims. -/
inductive StopErr where
  | noContainerID
  | loadFailed (e : String)
  | validationFailed (e : MErr)
  | stopFailed (graceful force : MErr)
deriving DecidableEq, Repr

/-- `App.StopMoodle` (app.go:640-691): load and validate the persisted id;
best-effort running check (a check failure logs a warning and proceeds);
already-stopped short-circuits to success; otherwise graceful
`StopContainer`, falling back to `ForceStopContainer`, failing only when
both fail. -/
def stopMoodle (env : AppEnv) : Except StopErr Unit × List Call :=
  if ¬ env.containerIDFileExists then (.error .noContainerID, [])
  else
    match env.loadContainerID with
    | .error e => (.error (.loadFailed e), [])
    | .ok containerID =>
      match mgrValidateContainerID env.denv containerID with
      | (.error e, tv) => (.error (.validationFailed e), tv)
      | (.ok _, tv) =>
        let stopSeq : List Call → Except StopErr Unit × List Call := fun t1 =>
          match mgrStopContainer env.denv containerID with
          | (.ok _, ts) => (.ok (), t1 ++ ts)
          | (.error eg, ts) =>
            match mgrForceStopContainer env.denv containerID with
            | (.ok _, tk) => (.ok (), t1 ++ ts ++ tk)
            | (.error ef, tk) => (.error (.stopFailed eg ef), t1 ++ ts ++ tk)
        match mgrIsContainerRunning env.denv containerID with
        | (.ok false, tr) => (.ok (), tv ++ tr)
        | (.ok true, tr) => stopSeq (tv ++ tr)
        | (.error _, tr) => stopSeq (tv ++ tr)

/-! ### Concrete environments used by witnesses and counterexamples -/

/-- A docker environment where every external command succeeds, the image is
present, the persisted container is reported stopped, and `docker start`
fails. -/
def denvStartFails : DockerEnv :=
  { imageName := "wenkhairu/moodle-prototype:502-stable"
    imagesOutput := .ok "wenkhairu/moodle-prototype:502-stable\n"
    pullResult := .ok ()
    runOutput := .ok "0123456789abcdef0123456789abcdef\n"
    startResult := .error "Error response from daemon: no such container"
    stopResult := .ok ()
    killResult := .ok ()
    inspectResult := .ok ()
    inspectStateOutput := .ok "false\n" }

/-- A pull environment with successful setup, zero exit, and a stdout
stream-processing failure. -/
def penvStreamFail : PullEnv :=
  { imageName := "wenkhairu/moodle-prototype:502-stable"
    stdoutPipe := .ok ()
    stderrPipe := .ok ()
    startCmd := .ok ()
    waitResult := .ok ()
    streamErr1 := some "error processing stdout: error reading Docker output: bufio.Scanner: token too long"
    streamErr2 := none }

/-- An all-successful pull environment. -/
def penvOk : PullEnv :=
  { imageName := "wenkhairu/moodle-prototype:502-stable"
    stdoutPipe := .ok ()
    stderrPipe := .ok ()
    startCmd := .ok ()
    waitResult := .ok ()
    streamErr1 := none
    streamErr2 := none }

/-- App environment for the C1 counterexample: persisted id loads, the
container is reported not running, and `docker start` fails. -/
def envStartFails : AppEnv :=
  { denv := denvStartFails
    penv := penvOk
    containerIDFileExists := true
    loadContainerID := .ok "0123456789abcdef0123456789abcdef"
    clearCredsResult := .ok ()
    saveContainerIDResult := .ok () }

/-- App environment where the running check itself fails with a docker
error. -/
def envRunningCheckFails : AppEnv :=
  { envStartFails with
    denv := { denvStartFails with
                startResult := .ok ()
                inspectStateOutput := .error "Error: No such object" } }

/-- App environment where the persisted container is reported running. -/
def envRunning : AppEnv :=
  { envStartFails with
    denv := { denvStartFails with inspectStateOutput := .ok "true\n" } }

/-- App environment where the persisted container is reported stopped and
every stop-related command succeeds. -/
def envStopped : AppEnv :=
  { envStartFails with
    denv := { denvStartFails with startResult := .ok () } }

/-- App environment where graceful stop fails and force stop succeeds on a
running container. -/
def envStopFailsKillOk : AppEnv :=
  { envStartFails with
    denv := { denvStartFails with
                inspectStateOutput := .ok "true\n"
                stopResult := .error "Error response from daemon: cannot stop container" } }

/-! ## Helper lemmas -/

theorem mgrIsContainerRunning_eq_ok {env : DockerEnv} {cid : String} {b : Bool}
    (h : (mgrIsContainerRunning env cid).1 = .ok b) :
    mgrIsContainerRunning env cid = (.ok b, [.inspectState]) := by
  rcases hf : validateContainerIDFmt cid with e | u
  · simp [mgrIsContainerRunning, hf] at h
  · rcases ho : env.inspectStateOutput with e | out
    · simp [mgrIsContainerRunning, hf, ho] at h
    · simp [mgrIsContainerRunning, hf, ho] at h ⊢
      exact h

theorem mgrValidateContainerID_eq_ok {env : DockerEnv} {cid : String}
    (h : (mgrValidateContainerID env cid).1 = .ok ()) :
    mgrValidateContainerID env cid = (.ok (), [.inspect]) := by
  rcases hf : validateContainerIDFmt cid with e | u
  · simp [mgrValidateContainerID, hf] at h
  · rcases ho : env.inspectResult with e | out
    · simp [mgrValidateContainerID, hf, ho] at h
    · simp [mgrValidateContainerID, hf, ho]

theorem mgrValidateContainerID_fmt_ok {env : DockerEnv} {cid : String}
    (h : (mgrValidateContainerID env cid).1 = .ok ()) :
    validateContainerIDFmt cid = .ok () := by
  rcases hf : validateContainerIDFmt cid with e | u
  · simp [mgrValidateContainerID, hf] at h
  · rfl

theorem mgrStartContainer_cases (env : DockerEnv) (cid : String) :
    (mgrStartContainer env cid).2 = [] ∨ (mgrStartContainer env cid).2 = [.start] := by
  unfold mgrStartContainer
  rcases validateContainerIDFmt cid with e | u
  · exact .inl rfl
  · rcases env.startResult with e | u <;> [exact .inr rfl; exact .inr rfl]

theorem cachedCount_le_length (ls : List LayerProgress) : cachedCount ls ≤ ls.length :=
  List.countP_le_length _

theorem actualWorkLayers_nonneg (ls : List LayerProgress) : 0 ≤ actualWorkLayers ls := by
  have h := cachedCount_le_length ls
  unfold actualWorkLayers
  omega

theorem completedCount_add_cachedCount_le (ls : List LayerProgress) :
    completedCount ls + cachedCount ls ≤ ls.length := by
  induction ls with
  | nil => simp [completedCount, cachedCount]
  | cons l t ih =>
    simp only [completedCount, cachedCount, List.countP_cons, List.length_cons] at *
    by_cases hc : isCachedLayer l
    · have hst : l.status = "Already exists" := by
        simpa [isCachedLayer] using hc
      have hnc : isCompletedLayer l = false := by
        simp [isCompletedLayer, hst]
      simp [hc, hnc]
      omega
    · simp [hc]
      split_ifs <;> omega

theorem completedCount_le_actualWorkLayers (ls : List LayerProgress) :
    (completedCount ls : Int) ≤ actualWorkLayers ls := by
  have h := completedCount_add_cachedCount_le ls
  unfold actualWorkLayers
  omega

theorem currentDownloadBytes_nonneg (ls : List LayerProgress)
    (h : ∀ l ∈ ls, 0 ≤ l.downloadCurrent) : 0 ≤ currentDownloadBytes ls := by
  unfold currentDownloadBytes
  apply List.sum_nonneg
  intro x hx
  simp only [List.mem_map] at hx
  obtain ⟨l, hl, rfl⟩ := hx
  split_ifs
  · exact h l hl
  · exact le_refl 0

theorem currentExtractBytes_nonneg (ls : List LayerProgress)
    (h : ∀ l ∈ ls, 0 ≤ l.extractCurrent) : 0 ≤ currentExtractBytes ls := by
  unfold currentExtractBytes
  apply List.sum_nonneg
  intro x hx
  simp only [List.mem_map] at hx
  obtain ⟨l, hl, rfl⟩ := hx
  split_ifs
  · exact h l hl
  · exact le_refl 0

theorem byteProgress_nonneg (ls : List LayerProgress)
    (hdc : 0 ≤ currentDownloadBytes ls) (hec : 0 ≤ currentExtractBytes ls) :
    0 ≤ byteProgress ls := by
  unfold byteProgress
  apply add_nonneg <;> split_ifs with h
  · exact mul_nonneg
      (div_nonneg (by exact_mod_cast hdc) (by exact_mod_cast h.le)) (by norm_num)
  · exact le_refl 0
  · exact mul_nonneg
      (div_nonneg (by exact_mod_cast hec) (by exact_mod_cast h.le)) (by norm_num)
  · exact le_refl 0

theorem blendedProgress_nonneg (ls : List LayerProgress)
    (hbp : 0 ≤ byteProgress ls) : 0 ≤ blendedProgress ls := by
  have haw : (0 : ℚ) ≤ ((actualWorkLayers ls : Int) : ℚ) := by
    exact_mod_cast actualWorkLayers_nonneg ls
  unfold blendedProgress
  split_ifs with h1 h2
  · apply add_nonneg
    · exact mul_nonneg hbp (div_nonneg (Nat.cast_nonneg _) haw)
    · apply mul_nonneg
      · apply mul_nonneg
        · exact div_nonneg (Nat.cast_nonneg _) (by exact_mod_cast h2.le)
        · norm_num
      · exact div_nonneg (by exact_mod_cast h2.le) haw
  · exact hbp
  · exact hbp

theorem layerBasedTerm_le_100 (ls : List LayerProgress)
    (haw : 0 < actualWorkLayers ls) :
    (completedCount ls : ℚ) / ((actualWorkLayers ls : Int) : ℚ) * 100 ≤ 100 := by
  have hawQ : (0 : ℚ) < ((actualWorkLayers ls : Int) : ℚ) := by exact_mod_cast haw
  have hccQ : (completedCount ls : ℚ) ≤ ((actualWorkLayers ls : Int) : ℚ) := by
    exact_mod_cast completedCount_le_actualWorkLayers ls
  calc (completedCount ls : ℚ) / ((actualWorkLayers ls : Int) : ℚ) * 100
      ≤ 1 * 100 := by
        apply mul_le_mul_of_nonneg_right _ (by norm_num)
        exact (div_le_one hawQ).mpr hccQ
    _ = 100 := one_mul 100

theorem calculateOverallProgress_le_100 (ls : List LayerProgress) :
    calculateOverallProgress ls ≤ 100 := by
  unfold calculateOverallProgress
  split_ifs with h0 h1 h2 h3 h4
  all_goals first
    | exact min_le_right _ _
    | exact layerBasedTerm_le_100 ls (by assumption)
    | norm_num

theorem calculateOverallProgress_nonneg (ls : List LayerProgress)
    (h : ∀ l ∈ ls, 0 ≤ l.downloadCurrent ∧ 0 ≤ l.downloadTotal ∧
        0 ≤ l.extractCurrent ∧ 0 ≤ l.extractTotal) :
    0 ≤ calculateOverallProgress ls := by
  have hdc : 0 ≤ currentDownloadBytes ls :=
    currentDownloadBytes_nonneg ls fun l hl => (h l hl).1
  have hec : 0 ≤ currentExtractBytes ls :=
    currentExtractBytes_nonneg ls fun l hl => (h l hl).2.2.1
  unfold calculateOverallProgress
  split_ifs with h0 h1 h2 h3 h4
  all_goals first
    | exact le_min (blendedProgress_nonneg ls (byteProgress_nonneg ls hdc hec)) (by norm_num)
    | exact mul_nonneg (div_nonneg (Nat.cast_nonneg _)
        (by exact_mod_cast actualWorkLayers_nonneg ls)) (by norm_num)
    | norm_num

theorem byteProgress_mono (L L' : List LayerProgress)
    (htd : totalDownloadBytes L = totalDownloadBytes L')
    (hte : totalExtractBytes L = totalExtractBytes L')
    (hcd : currentDownloadBytes L ≤ currentDownloadBytes L')
    (hce : currentExtractBytes L ≤ currentExtractBytes L') :
    byteProgress L ≤ byteProgress L' := by
  unfold byteProgress
  rw [← htd, ← hte]
  apply add_le_add
  · split_ifs with h
    · apply mul_le_mul_of_nonneg_right _ (by norm_num)
      have hc : (0 : ℚ) < (totalDownloadBytes L : ℚ) := by exact_mod_cast h
      exact (div_le_div_iff_of_pos_right hc).mpr (by exact_mod_cast hcd)
    · exact le_refl 0
  · split_ifs with h
    · apply mul_le_mul_of_nonneg_right _ (by norm_num)
      have hc : (0 : ℚ) < (totalExtractBytes L : ℚ) := by exact_mod_cast h
      exact (div_le_div_iff_of_pos_right hc).mpr (by exact_mod_cast hce)
    · exact le_refl 0

theorem blendedProgress_mono (L L' : List LayerProgress)
    (hme : meaningfulCount L = meaningfulCount L')
    (haw : actualWorkLayers L = actualWorkLayers L')
    (hcnb : completedNoByteCount L = completedNoByteCount L')
    (hbp : byteProgress L ≤ byteProgress L') :
    blendedProgress L ≤ blendedProgress L' := by
  have hawn : (0 : ℚ) ≤ ((actualWorkLayers L : Int) : ℚ) := by
    exact_mod_cast actualWorkLayers_nonneg L
  unfold blendedProgress
  rw [← hme, ← haw, ← hcnb]
  split_ifs with h1 h2
  · apply add_le_add_right
    exact mul_le_mul_of_nonneg_right hbp (div_nonneg (Nat.cast_nonneg _) hawn)
  · exact hbp
  · exact hbp

theorem calculateOverallProgress_mono_currents (L L' : List LayerProgress)
    (hlen : L.length = L'.length)
    (hca : cachedCount L = cachedCount L')
    (hco : completedCount L = completedCount L')
    (hme : meaningfulCount L = meaningfulCount L')
    (hcnb : completedNoByteCount L = completedNoByteCount L')
    (htd : totalDownloadBytes L = totalDownloadBytes L')
    (hte : totalExtractBytes L = totalExtractBytes L')
    (hcd : currentDownloadBytes L ≤ currentDownloadBytes L')
    (hce : currentExtractBytes L ≤ currentExtractBytes L') :
    calculateOverallProgress L ≤ calculateOverallProgress L' := by
  have haw : actualWorkLayers L = actualWorkLayers L' := by
    unfold actualWorkLayers
    rw [hlen, hca]
  unfold calculateOverallProgress
  rw [← hlen, ← hca, ← hco, ← hme, ← htd, ← hte, ← haw]
  split_ifs
  all_goals first
    | exact le_refl _
    | exact min_le_min
        (blendedProgress_mono L L' hme haw hcnb (byteProgress_mono L L' htd hte hcd hce))
        (le_refl 100)

theorem tryMarkers_eq_none (ms : List (List Char)) (s : List Char)
    (h : ∀ m ∈ ms, ¬ m <+: s) : tryMarkers ms s = none := by
  induction ms with
  | nil => rfl
  | cons m rest ih =>
    rw [tryMarkers]
    have hp : m.isPrefixOf s = false := by
      rw [Bool.eq_false_iff]
      intro hc
      exact h m (List.mem_cons_self m rest) (List.isPrefixOf_iff_prefix.mp hc)
    rw [hp]
    exact ih fun m' hm' => h m' (List.mem_cons_of_mem _ hm')

theorem not_prefix_append_newline {m l t : List Char}
    (hnl : '\n' ∉ m) (hno : ¬ m <:+: l) :
    ¬ m <+: (l ++ '\n' :: t) := by
  intro h
  have hm := List.prefix_iff_eq_take.mp h
  rw [List.take_append_eq_append_take] at hm
  by_cases hlen : m.length ≤ l.length
  · rw [Nat.sub_eq_zero_of_le hlen, List.take_zero, List.append_nil] at hm
    apply hno
    rw [hm]
    exact (List.take_prefix _ _).isInfix
  · push_neg at hlen
    obtain ⟨k, hk⟩ : ∃ k, m.length - l.length = k + 1 :=
      ⟨m.length - l.length - 1, by omega⟩
    rw [List.take_of_length_le (by omega), hk, List.take_succ_cons] at hm
    apply hnl
    rw [hm]
    exact List.mem_append_right l (List.mem_cons_self _ _)

theorem scanFor_skip (ms : List (List Char)) (l t : List Char)
    (hm : ∀ m ∈ ms, '\n' ∉ m)
    (hno : ∀ m ∈ ms, ¬ m <:+: l) :
    scanFor ms (l ++ '\n' :: t) = scanFor ms t := by
  induction l with
  | nil =>
    rw [List.nil_append, scanFor]
    have hnone : tryMarkers ms ('\n' :: t) = none := by
      apply tryMarkers_eq_none
      intro m hmm
      have h := not_prefix_append_newline (m := m) (l := []) (t := t)
        (hm m hmm) (hno m hmm)
      simpa using h
    rw [hnone]
  | cons c l2 ih =>
    rw [List.cons_append, scanFor]
    have hnone : tryMarkers ms (c :: (l2 ++ '\n' :: t)) = none := by
      apply tryMarkers_eq_none
      intro m hmm
      have h := not_prefix_append_newline (hm m hmm) (hno m hmm) (t := t)
      simpa using h
    rw [hnone]
    exact ih fun m hmm hinf => hno m hmm (hinf.trans (List.suffix_cons c l2).isInfix)

theorem takeWhile_ne_newline (xs tail : List Char)
    (hxs : ∀ c ∈ xs, ¬ c = '\n')
    (ht : tail = [] ∨ ∃ r, tail = '\n' :: r) :
    (xs ++ tail).takeWhile (fun c => c ≠ '\n') = xs := by
  induction xs with
  | nil =>
    rcases ht with rfl | ⟨r, rfl⟩
    · rfl
    · simp [List.takeWhile_cons]
  | cons x xs ih =>
    rw [List.cons_append, List.takeWhile_cons,
      if_pos (by simpa using hxs x (List.mem_cons_self _ _)),
      ih fun c hc => hxs c (List.mem_cons_of_mem _ hc)]

theorem captureAfter_space_body (b : Char) (bs tail : List Char)
    (hb : isWS b = false)
    (hbody : ∀ c ∈ b :: bs, ¬ c = '\n')
    (ht : tail = [] ∨ ∃ r, tail = '\n' :: r) :
    captureAfter (' ' :: b :: (bs ++ tail)) = some (b :: bs) := by
  unfold captureAfter
  have h1 : (' ' :: b :: (bs ++ tail)).takeWhile isWS = [' '] := by
    rw [List.takeWhile_cons, if_pos (by decide), List.takeWhile_cons, if_neg (by simp [hb])]
  rw [h1]
  rw [if_pos (by simp)]
  have h2 : (' ' :: b :: (bs ++ tail)).drop [' '].length = (b :: bs) ++ tail := by
    simp
  rw [h2, takeWhile_ne_newline (b :: bs) tail hbody ht]

theorem scanFor_pw_hit (tail : List Char)
    (ht : tail = [] ∨ ∃ r, tail = '\n' :: r) :
    scanFor [pwMarker1, pwMarker2] (pwLine ++ tail) = some ("Sw0rdFish!".data) := by
  have hsplit : pwLine ++ tail = pwMarker1 ++ (' ' :: ('S' :: ("w0rdFish!".data ++ tail))) := by
    rw [show pwLine = pwMarker1 ++ (' ' :: 'S' :: "w0rdFish!".data) from rfl, List.append_assoc]
    rfl
  have htry : tryMarkers [pwMarker1, pwMarker2] (pwLine ++ tail) = some ("Sw0rdFish!".data) := by
    rw [tryMarkers]
    have hpre : pwMarker1.isPrefixOf (pwLine ++ tail) = true := by
      rw [List.isPrefixOf_iff_prefix, hsplit]
      exact List.prefix_append _ _
    rw [hpre]
    have hdrop : (pwLine ++ tail).drop pwMarker1.length = ' ' :: 'S' :: ("w0rdFish!".data ++ tail) := by
      rw [hsplit, List.drop_left]
    rw [if_pos rfl, hdrop,
      captureAfter_space_body 'S' ("w0rdFish!".data) tail (by decide) (by decide) ht]
  rw [show pwLine ++ tail = 'G' :: ("enerated admin password: Sw0rdFish!".data ++ tail) from rfl,
    scanFor]
  rw [show ('G' : Char) :: ("enerated admin password: Sw0rdFish!".data ++ tail) = pwLine ++ tail from rfl,
    htry]

theorem scanFor_url_hit (tail : List Char)
    (ht : tail = [] ∨ ∃ r, tail = '\n' :: r) :
    scanFor [urlMarker] (urlLine ++ tail) = some ("http://localhost:8080".data) := by
  have hsplit : urlLine ++ tail = urlMarker ++ (' ' :: ('h' :: ("ttp://localhost:8080".data ++ tail))) := by
    rw [show urlLine = urlMarker ++ (' ' :: 'h' :: "ttp://localhost:8080".data) from rfl, List.append_assoc]
    rfl
  have htry : tryMarkers [urlMarker] (urlLine ++ tail) = some ("http://localhost:8080".data) := by
    rw [tryMarkers]
    have hpre : urlMarker.isPrefixOf (urlLine ++ tail) = true := by
      rw [List.isPrefixOf_iff_prefix, hsplit]
      exact List.prefix_append _ _
    rw [hpre]
    have hdrop : (urlLine ++ tail).drop urlMarker.length = ' ' :: 'h' :: ("ttp://localhost:8080".data ++ tail) := by
      rw [hsplit, List.drop_left]
    rw [if_pos rfl, hdrop,
      captureAfter_space_body 'h' ("ttp://localhost:8080".data) tail (by decide) (by decide) ht]
  rw [show urlLine ++ tail = 'M' :: ("oodle is available at: http://localhost:8080".data ++ tail) from rfl,
    scanFor]
  rw [show ('M' : Char) :: ("oodle is available at: http://localhost:8080".data ++ tail) = urlLine ++ tail from rfl,
    htry]

theorem scanFor_through (ms : List (List Char)) (target cap : List Char)
    (hm : ∀ m ∈ ms, '\n' ∉ m)
    (hhit : ∀ tail, (tail = [] ∨ ∃ r, tail = '\n' :: r) →
        scanFor ms (target ++ tail) = some cap) :
    ∀ ls : List (List Char), target ∈ ls →
      (∀ l ∈ ls, l = target ∨ ∀ m ∈ ms, ¬ m <:+: l) →
      scanFor ms (joinLines ls) = some cap := by
  intro ls
  induction ls with
  | nil => intro hmem; cases hmem
  | cons l rest ih =>
    intro hmem hall
    by_cases hl : l = target
    · subst hl
      cases rest with
      | nil =>
        have h := hhit [] (.inl rfl)
        simpa [joinLines] using h
      | cons r2 rs =>
        have h := hhit ('\n' :: joinLines (r2 :: rs)) (.inr ⟨_, rfl⟩)
        simpa [joinLines] using h
    · have hskip : ∀ m ∈ ms, ¬ m <:+: l := by
        rcases hall l (List.mem_cons_self _ _) with h | h
        · exact absurd h hl
        · exact h
      have hmem2 : target ∈ rest := by
        rcases List.mem_cons.mp hmem with h | h
        · exact absurd h.symm hl
        · exact h
      cases rest with
      | nil => cases hmem2
      | cons r2 rs =>
        rw [show joinLines (l :: r2 :: rs) = l ++ '\n' :: joinLines (r2 :: rs) from rfl,
          scanFor_skip ms l _ hm hskip]
        exact ih hmem2 fun x hx => hall x (List.mem_cons_of_mem _ hx)


theorem isWS_goSpace {c : Char} (h : isWS c = true) : goSpace c = true := by
  simp only [isWS, Bool.or_eq_true, beq_iff_eq] at h
  rcases h with (((rfl | rfl) | rfl) | rfl) | rfl <;> decide

theorem dropWhile_ne_nil_of_witness {p : Char → Bool} {l : List Char}
    (h : ∃ x ∈ l, p x = false) : l.dropWhile p ≠ [] := by
  induction l with
  | nil => simp at h
  | cons c l2 ih =>
    rw [List.dropWhile_cons]
    split_ifs with hc
    · apply ih
      rcases h with ⟨x, hx, hpx⟩
      rcases List.mem_cons.mp hx with rfl | hx2
      · rw [hc] at hpx; cases hpx
      · exact ⟨x, hx2, hpx⟩
    · simp

theorem mem_dropWhile_of_witness {p : Char → Bool} {l : List Char}
    (h : ∃ x ∈ l, p x = false) : ∃ x ∈ l.dropWhile p, p x = false := by
  induction l with
  | nil => simp at h
  | cons c l2 ih =>
    rw [List.dropWhile_cons]
    split_ifs with hc
    · apply ih
      rcases h with ⟨x, hx, hpx⟩
      rcases List.mem_cons.mp hx with rfl | hx2
      · rw [hc] at hpx; cases hpx
      · exact ⟨x, hx2, hpx⟩
    · rcases h with ⟨x, hx, hpx⟩
      exact ⟨x, hx, hpx⟩

theorem trimGo_ne_nil_of_witness {l : List Char} {x : Char}
    (hx : x ∈ l) (hgs : goSpace x = false) : trimGo l ≠ [] := by
  unfold trimGo
  intro hcon
  rw [List.reverse_eq_nil_iff] at hcon
  have h1 : ∃ y ∈ l.dropWhile goSpace, goSpace y = false :=
    mem_dropWhile_of_witness ⟨x, hx, hgs⟩
  rcases h1 with ⟨y, hy, hgy⟩
  have h2 : ∃ y ∈ (l.dropWhile goSpace).reverse, goSpace y = false :=
    ⟨y, List.mem_reverse.mpr hy, hgy⟩
  exact dropWhile_ne_nil_of_witness h2 hcon

theorem trimGo_singleton_ws {c : Char} (h : goSpace c = true) : trimGo [c] = [] := by
  simp [trimGo, List.dropWhile_cons, h]

theorem captureAfter_cons_ws {c : Char} {v : List Char}
    (hws : isWS c = true) (hk : (v.takeWhile isWS).length < v.length) :
    captureAfter (c :: v) = captureAfter v := by
  unfold captureAfter
  have h1 : (c :: v).takeWhile isWS = c :: v.takeWhile isWS := by
    rw [List.takeWhile_cons, if_pos hws]
  rw [h1, List.length_cons]
  rw [if_pos (by simpa using Nat.succ_lt_succ hk), if_pos hk, List.drop_succ_cons]

theorem dropWhile_append_ne_nil {p : Char → Bool} {l1 : List Char} (l2 : List Char)
    (h : l1.dropWhile p ≠ []) :
    (l1 ++ l2).dropWhile p = l1.dropWhile p ++ l2 := by
  rw [List.dropWhile_append, if_neg (by simpa [List.isEmpty_iff] using h)]

theorem captureAfter_trichotomy (v : List Char) :
    (captureAfter v = none ∧ ∀ c ∈ v, c = '\n') ∨
    (∃ c0 rest, captureAfter v = some (c0 :: rest) ∧ isWS c0 = false ∧ c0 ∈ v) ∨
    (∃ c0, captureAfter v = some [c0] ∧ isWS c0 = true ∧ c0 ∈ v ∧ ∀ c ∈ v, isWS c = true) := by
  induction v with
  | nil => exact .inl ⟨rfl, by simp⟩
  | cons c v2 ih =>
    by_cases hws : isWS c = true
    · by_cases hlen : (v2.takeWhile isWS).length < v2.length
      · rw [captureAfter_cons_ws hws hlen]
        rcases ih with ⟨hnone, hall⟩ | ⟨c0, rest, hcap, hc0, hmem⟩ | ⟨c0, hcap, hc0, hmem, hallws⟩
        · exfalso
          have : (v2.takeWhile isWS) = v2 := List.takeWhile_eq_self_iff.mpr fun x hx => by
            rw [hall x hx]; decide
          rw [this] at hlen
          exact absurd hlen (lt_irrefl _)
        · exact .inr (.inl ⟨c0, rest, hcap, hc0, List.mem_cons_of_mem _ hmem⟩)
        · exfalso
          have : (v2.takeWhile isWS) = v2 := List.takeWhile_eq_self_iff.mpr hallws
          rw [this] at hlen
          exact absurd hlen (lt_irrefl _)
      · have htw : v2.takeWhile isWS = v2 :=
          (List.takeWhile_prefix isWS).eq_of_length (by
            have hle := (List.takeWhile_prefix (l := v2) isWS).length_le
            omega)
        have hallws2 : ∀ x ∈ v2, isWS x = true := List.takeWhile_eq_self_iff.mp htw
        have hkfull : ¬ ((c :: v2).takeWhile isWS).length < (c :: v2).length := by
          rw [List.takeWhile_cons, if_pos hws, htw]
          simp
        by_cases hrn : v2.reverse.dropWhile (fun x => x = '\n') = []
        · have hv2nl : ∀ x ∈ v2, x = '\n' := by
            intro x hx
            have := List.dropWhile_eq_nil_iff.mp hrn x (List.mem_reverse.mpr hx)
            simpa using this
          by_cases hcn : c = '\n'
          · refine .inl ⟨?_, ?_⟩
            · unfold captureAfter
              rw [if_neg hkfull]
              have : (c :: v2).reverse.dropWhile (fun x => x = '\n') = [] := by
                rw [List.reverse_cons, List.dropWhile_append, if_pos (by simpa [List.isEmpty_iff] using hrn)]
                simp [List.dropWhile_cons, hcn]
              rw [this]
            · intro x hx
              rcases List.mem_cons.mp hx with rfl | hx2
              · exact hcn
              · exact hv2nl x hx2
          · refine .inr (.inr ⟨c, ?_, hws, List.mem_cons_self _ _, ?_⟩)
            · unfold captureAfter
              rw [if_neg hkfull]
              have : (c :: v2).reverse.dropWhile (fun x => x = '\n') = [c] := by
                rw [List.reverse_cons, List.dropWhile_append, if_pos (by simpa [List.isEmpty_iff] using hrn)]
                simp [List.dropWhile_cons, hcn]
              rw [this]
            · intro x hx
              rcases List.mem_cons.mp hx with rfl | hx2
              · exact hws
              · exact hallws2 x hx2
        · obtain ⟨c0, w, hw⟩ := List.exists_cons_of_ne_nil hrn
          have hc0mem : c0 ∈ v2 := by
            have h1 : c0 ∈ v2.reverse.dropWhile (fun x => x = '\n') := by
              rw [hw]; exact List.mem_cons_self _ _
            exact List.mem_reverse.mp ((List.dropWhile_sublist _).subset h1)
          refine .inr (.inr ⟨c0, ?_, hallws2 c0 hc0mem, List.mem_cons_of_mem _ hc0mem, ?_⟩)
          · unfold captureAfter
            rw [if_neg hkfull]
            have : (c :: v2).reverse.dropWhile (fun x => x = '\n') = c0 :: (w ++ [c]) := by
              rw [List.reverse_cons, dropWhile_append_ne_nil _ hrn, hw]
              rfl
            rw [this]
          · intro x hx
            rcases List.mem_cons.mp hx with rfl | hx2
            · exact hws
            · exact hallws2 x hx2
    · have hwsf : isWS c = false := by simpa using hws
      refine .inr (.inl ⟨c, v2.takeWhile (fun x => x ≠ '\n'), ?_, hwsf, List.mem_cons_self _ _⟩)
      unfold captureAfter
      have h1 : (c :: v2).takeWhile isWS = [] := by
        rw [List.takeWhile_cons, if_neg (by simp [hwsf])]
      rw [h1]
      rw [if_pos (by simp)]
      simp only [List.length_nil, List.drop_zero]
      rw [List.takeWhile_cons, if_pos ?hc]
      case hc =>
        have hne : c ≠ '\n' := by
          intro hcn
          rw [hcn] at hwsf
          exact absurd hwsf (by decide)
        simpa using hne

theorem tryMarkers_some_inv {ms : List (List Char)} {s cap : List Char}
    (h : tryMarkers ms s = some cap) :
    ∃ m ∈ ms, m <+: s ∧ captureAfter (s.drop m.length) = some cap := by
  induction ms with
  | nil => cases h
  | cons m rest ih =>
    rw [tryMarkers] at h
    by_cases hp : m.isPrefixOf s
    · rw [hp] at h
      simp only [if_true] at h
      rcases hc : captureAfter (s.drop m.length) with _ | cap0
      · rw [hc] at h
        obtain ⟨m2, hm2, hpre, hcap⟩ := ih h
        exact ⟨m2, List.mem_cons_of_mem _ hm2, hpre, hcap⟩
      · rw [hc] at h
        cases h
        exact ⟨m, List.mem_cons_self _ _, List.isPrefixOf_iff_prefix.mp hp, hc⟩
    · rw [Bool.eq_false_iff.mpr hp] at h
      simp only [Bool.false_eq_true, if_false] at h
      obtain ⟨m2, hm2, hpre, hcap⟩ := ih h
      exact ⟨m2, List.mem_cons_of_mem _ hm2, hpre, hcap⟩

theorem tryMarkers_some_of_witness {ms : List (List Char)} {s : List Char}
    (h : ∃ m ∈ ms, m <+: s ∧ captureAfter (s.drop m.length) ≠ none) :
    ∃ cap, tryMarkers ms s = some cap := by
  induction ms with
  | nil => simp at h
  | cons m rest ih =>
    rw [tryMarkers]
    by_cases hp : m.isPrefixOf s
    · rw [hp]
      simp only [if_true]
      rcases hc : captureAfter (s.drop m.length) with _ | cap0
      · apply ih
        rcases h with ⟨m2, hm2, hpre, hcap⟩
        rcases List.mem_cons.mp hm2 with rfl | hm2r
        · exact absurd hc hcap
        · exact ⟨m2, hm2r, hpre, hcap⟩
      · exact ⟨cap0, rfl⟩
    · rw [Bool.eq_false_iff.mpr hp]
      simp only [Bool.false_eq_true, if_false]
      apply ih
      rcases h with ⟨m2, hm2, hpre, hcap⟩
      rcases List.mem_cons.mp hm2 with rfl | hm2r
      · exact absurd (List.isPrefixOf_iff_prefix.mpr hpre) hp
      · exact ⟨m2, hm2r, hpre, hcap⟩

theorem scanFor_some_witness (ms : List (List Char)) (t cap : List Char)
    (h : scanFor ms t = some cap) (htrim : trimGo cap ≠ []) :
    ∃ m ∈ ms, MarkerHitWitness m t := by
  induction t with
  | nil => cases h
  | cons c r ih =>
    rw [scanFor] at h
    rcases htry : tryMarkers ms (c :: r) with _ | cap0
    · rw [htry] at h
      obtain ⟨m, hm, u, v, hdec, x, hx, hxws⟩ := ih h
      exact ⟨m, hm, c :: u, v, by rw [List.cons_append, List.cons_append, hdec], x, hx, hxws⟩
    · rw [htry] at h
      cases h
      obtain ⟨m, hm, hpre, hcap⟩ := tryMarkers_some_inv htry
      obtain ⟨w, hw⟩ := hpre
      have hdrop : (c :: r).drop m.length = w := by
        rw [← hw, List.drop_left]
      rw [hdrop] at hcap
      rcases captureAfter_trichotomy w with ⟨hnone, _⟩ | ⟨c0, rest, hcap2, hc0, hmem⟩ |
          ⟨c0, hcap2, hc0, hmem, _⟩
      · rw [hnone] at hcap; cases hcap
      · rw [hcap2] at hcap
        cases hcap
        exact ⟨m, hm, [], w, by rw [List.nil_append, hw], c0, hmem, hc0⟩
      · rw [hcap2] at hcap
        cases hcap
        exact absurd (trimGo_singleton_ws (isWS_goSpace hc0)) htrim

theorem goSpace_eq_false_of_isWS_false {c : Char}
    (hclean : goSpace c = true → isWS c = true) (h : isWS c = false) :
    goSpace c = false := by
  cases hg : goSpace c
  · rfl
  · rw [hclean hg] at h
    cases h

theorem trim_of_tryMarkers_at {ms : List (List Char)} {t cap u m v : List Char} {x : Char}
    (hdec : t = u ++ m ++ v) (hx : x ∈ v) (hxws : isWS x = false)
    (hclean : ∀ c ∈ t, goSpace c = true → isWS c = true)
    (hsmall : ∀ m2 ∈ ms, m2 <+: t → m2.length ≤ u.length + m.length)
    (htry : tryMarkers ms t = some cap) :
    trimGo cap ≠ [] := by
  obtain ⟨m2, hm2, hpre, hcap⟩ := tryMarkers_some_inv htry
  have hlen2 : m2.length ≤ u.length + m.length := hsmall m2 hm2 hpre
  have hxdrop : x ∈ t.drop m2.length := by
    have hv : t.drop (u.length + m.length) = v := by
      rw [hdec, ← List.length_append, List.drop_left]
    have hdd : (t.drop m2.length).drop (u.length + m.length - m2.length) =
        t.drop (u.length + m.length) := by
      rw [List.drop_drop]
      congr 1
      omega
    have hx2 : x ∈ (t.drop m2.length).drop (u.length + m.length - m2.length) := by
      rw [hdd, hv]
      exact hx
    exact List.drop_subset _ _ hx2
  rcases captureAfter_trichotomy (t.drop m2.length) with ⟨hnone, _⟩ |
      ⟨c0, rest, hcap2, hc0, hmem⟩ | ⟨c0, hcap2, _, _, hallws⟩
  · rw [hnone] at hcap
    cases hcap
  · rw [hcap2] at hcap
    cases hcap
    have hc0t : c0 ∈ t := List.drop_subset _ _ hmem
    have hgs : goSpace c0 = false := goSpace_eq_false_of_isWS_false (hclean c0 hc0t) hc0
    exact trimGo_ne_nil_of_witness (List.mem_cons_self _ _) hgs
  · rw [hallws x hxdrop] at hxws
    cases hxws

theorem scanFor_witness_some (ms : List (List Char))
    (hne : ∀ m ∈ ms, m ≠ [])
    (hanti : ∀ m1 ∈ ms, ∀ m2 ∈ ms, m1 <+: m2 → m1 = m2)
    (hcross : ∀ m1 ∈ ms, ∀ m2 ∈ ms, m1.headI ∉ m2.drop 1) :
    ∀ (u m v : List Char), m ∈ ms →
      (∃ x ∈ v, isWS x = false) →
      (∀ c ∈ u ++ m ++ v, goSpace c = true → isWS c = true) →
      ∃ cap, scanFor ms (u ++ m ++ v) = some cap ∧ trimGo cap ≠ [] := by
  intro u
  induction u with
  | nil =>
    intro m v hm hx hclean
    obtain ⟨x, hxv, hxws⟩ := hx
    obtain ⟨c, cs, rfl⟩ := List.exists_cons_of_ne_nil (hne _ hm)
    have hcapne : captureAfter (((c :: cs) ++ v).drop (c :: cs).length) ≠ none := by
      rw [List.drop_left]
      rcases captureAfter_trichotomy v with ⟨hnone, hall⟩ | ⟨c0, rest, hcap2, _, _⟩ |
          ⟨c0, hcap2, _, _, _⟩
      · rw [hall x hxv] at hxws
        cases hxws
      · rw [hcap2]
        exact Option.some_ne_none _
      · rw [hcap2]
        exact Option.some_ne_none _
    obtain ⟨cap, htry⟩ := tryMarkers_some_of_witness
      ⟨c :: cs, hm, List.prefix_append _ _, hcapne⟩
    refine ⟨cap, ?_, ?_⟩
    · rw [List.nil_append, List.cons_append, scanFor, ← List.cons_append, htry]
    · apply trim_of_tryMarkers_at (u := []) (m := c :: cs) (v := v) rfl hxv hxws hclean ?_ htry
      intro m2 hm2 hpre2
      simp only [List.length_nil, Nat.zero_add]
      by_contra hgt
      push_neg at hgt
      have hple : (c :: cs) <+: m2 :=
        List.prefix_of_prefix_length_le (List.prefix_append _ _) hpre2 (le_of_lt hgt)
      have heq := hanti _ hm _ hm2 hple
      rw [heq] at hgt
      exact lt_irrefl _ hgt
  | cons a u2 ih =>
    intro m v hm hx hclean
    obtain ⟨x, hxv, hxws⟩ := hx
    rcases htry : tryMarkers ms ((a :: u2) ++ m ++ v) with _ | cap
    · rw [List.cons_append, List.cons_append, scanFor,
        ← List.cons_append, ← List.cons_append, htry]
      apply ih m v hm ⟨x, hxv, hxws⟩
      intro c hc
      apply hclean c
      rw [List.cons_append, List.cons_append]
      apply List.mem_cons_of_mem
      exact hc
    · refine ⟨cap, ?_, ?_⟩
      · rw [List.cons_append, List.cons_append, scanFor,
          ← List.cons_append, ← List.cons_append, htry]
      · apply trim_of_tryMarkers_at (u := a :: u2) (m := m) (v := v) rfl hxv hxws hclean ?_ htry
        intro m2 hm2 hpre2
        by_cases hle : m2.length ≤ (a :: u2).length
        · exact le_trans hle (Nat.le_add_right _ _)
        · exfalso
          push_neg at hle
          obtain ⟨c, cs, hcm⟩ := List.exists_cons_of_ne_nil (hne _ hm)
          have hm2take := List.prefix_iff_eq_take.mp hpre2
          rw [List.append_assoc, List.take_append_eq_append_take,
            List.take_of_length_le (le_of_lt hle)] at hm2take
          obtain ⟨k, hk⟩ : ∃ k, m2.length - (a :: u2).length = k + 1 :=
            ⟨m2.length - (a :: u2).length - 1, by omega⟩
          rw [hk, hcm, List.cons_append, List.cons_append, List.take_succ_cons] at hm2take
          have hmem : c ∈ m2.drop 1 := by
            rw [hm2take]
            simp
          have hhead : m.headI = c := by
            rw [hcm]
            rfl
          exact hcross m hm m2 hm2 (hhead ▸ hmem)

theorem scanField_mono (ms : List (List Char))
    (hne : ∀ m ∈ ms, m ≠ [])
    (hanti : ∀ m1 ∈ ms, ∀ m2 ∈ ms, m1 <+: m2 → m1 = m2)
    (hcross : ∀ m1 ∈ ms, ∀ m2 ∈ ms, m1.headI ∉ m2.drop 1)
    (t1 t2 : List Char) (hsub : t1 <:+: t2)
    (hclean : ∀ c ∈ t2, goSpace c = true → isWS c = true)
    (h1 : String.mk (((scanFor ms t1).map trimGo).getD []) ≠ "") :
    String.mk (((scanFor ms t2).map trimGo).getD []) ≠ "" := by
  rcases hs1 : scanFor ms t1 with _ | cap
  · rw [hs1] at h1
    exact absurd rfl h1
  · rw [hs1] at h1
    have htrim : trimGo cap ≠ [] := by
      intro hc
      apply h1
      show String.mk (trimGo cap) = ""
      rw [hc]
    obtain ⟨m, hm, u, v, hdec, x, hxv, hxws⟩ := scanFor_some_witness ms t1 cap hs1 htrim
    obtain ⟨s, t, hst⟩ := hsub
    have ht2 : t2 = (s ++ u) ++ m ++ (v ++ t) := by
      rw [← hst, hdec]
      simp [List.append_assoc]
    obtain ⟨cap2, hs2, htrim2⟩ :=
      scanFor_witness_some ms hne hanti hcross (s ++ u) m (v ++ t) hm
        ⟨x, List.mem_append_left _ hxv, hxws⟩
        (by rw [← ht2]; exact hclean)
    rw [← ht2] at hs2
    rw [hs2]
    intro hc
    apply htrim2
    simpa using congrArg String.data hc

/-! ## Claims -/

/-- C7: during activation, when the persisted handle loads and
`IsContainerRunning` reports `true`, `RunMoodle` fails immediately with the
already-running error and issues no image-pull and no new-container run
(app.go:534-545). -/
theorem C7_already_running_fails_fast (env : AppEnv) (cid : String)
    (hfile : env.containerIDFileExists = true)
    (hload : env.loadContainerID = .ok cid)
    (hrun : (mgrIsContainerRunning env.denv cid).1 = .ok true) :
    (runMoodle env).1 = .error .alreadyRunning ∧
      Call.pull ∉ (runMoodle env).2 ∧ Call.runContainer ∉ (runMoodle env).2 := by
  have hr := mgrIsContainerRunning_eq_ok hrun
  simp only [runMoodle, hfile, hload, hr, if_true]
  simp

/-- C7 witness: the guard at a concrete environment reporting a running
container. -/
theorem C7_witness :
    (runMoodle envRunning).1 = .error .alreadyRunning ∧
      Call.pull ∉ (runMoodle envRunning).2 ∧
      Call.runContainer ∉ (runMoodle envRunning).2 :=
  C7_already_running_fails_fast envRunning "0123456789abcdef0123456789abcdef"
    rfl rfl (by decide)

/-- C1 counterexample: with a persisted, loadable handle, a not-running
report and a failing `docker start`, `RunMoodle` returns the start error and
never reaches the brand-new path (no image check, no pull, no run), contrary
to the claimed fall-through. -/
theorem C1_counterexample :
    (runMoodle envStartFails).1 =
      .error (.startFailed (.docker "start" "Error response from daemon: no such container")) ∧
      Call.imageList ∉ (runMoodle envStartFails).2 ∧
      Call.pull ∉ (runMoodle envStartFails).2 ∧
      Call.runContainer ∉ (runMoodle envStartFails).2 := by decide

/-- C1 (amended): with a persisted handle that loads, it is a failure of the
`IsContainerRunning` check that is logged and falls through to the brand-new
path; a failure of `start(handle)` itself is propagated to the caller and
the brand-new path (image check, pull, createAndStart) is not taken
(app.go:540-564). -/
theorem C1_start_failure_propagated_check_failure_falls_through
    (env : AppEnv) (cid : String)
    (hfile : env.containerIDFileExists = true)
    (hload : env.loadContainerID = .ok cid) :
    (∀ e, (mgrIsContainerRunning env.denv cid).1 = .error e →
      runMoodle env = firstTimeSetup env (mgrIsContainerRunning env.denv cid).2) ∧
    (∀ e, (mgrIsContainerRunning env.denv cid).1 = .ok false →
      (mgrStartContainer env.denv cid).1 = .error e →
      (runMoodle env).1 = .error (.startFailed e) ∧
        Call.imageList ∉ (runMoodle env).2 ∧
        Call.pull ∉ (runMoodle env).2 ∧
        Call.runContainer ∉ (runMoodle env).2) := by
  constructor
  · intro e he
    rcases hp : mgrIsContainerRunning env.denv cid with ⟨r, t⟩
    rw [hp] at he
    simp only at he
    subst he
    rw [runMoodle, hfile, hload]
    simp [hp]
  · intro e hrun hstart
    have hr := mgrIsContainerRunning_eq_ok hrun
    rcases hs : mgrStartContainer env.denv cid with ⟨sr, ts⟩
    rw [hs] at hstart
    simp only at hstart
    subst hstart
    have hts := mgrStartContainer_cases env.denv cid
    rw [hs] at hts
    simp only at hts
    simp only [runMoodle, hfile, hload, hr, if_true, hs]
    rcases hts with ht | ht <;> subst ht <;> simp

/-- C1 witness: both amended behaviours at concrete environments — a failing
running-check falls through to the brand-new path, and a failing start is
propagated with no brand-new calls. -/
theorem C1_witness :
    runMoodle envRunningCheckFails =
        firstTimeSetup envRunningCheckFails
          (mgrIsContainerRunning envRunningCheckFails.denv
            "0123456789abcdef0123456789abcdef").2 ∧
      (runMoodle envStartFails).1 =
        .error (.startFailed
          (.docker "start" "Error response from daemon: no such container")) :=
  ⟨(C1_start_failure_propagated_check_failure_falls_through envRunningCheckFails
      "0123456789abcdef0123456789abcdef" rfl rfl).1
      (.docker "inspect" "Error: No such object") (by decide),
   ((C1_start_failure_propagated_check_failure_falls_through envStartFails
      "0123456789abcdef0123456789abcdef" rfl rfl).2
      (.docker "start" "Error response from daemon: no such container")
      (by decide) (by decide)).1⟩

/-- C2 counterexample: a pull whose process exits zero but whose stdout
stream processing fails is reported as success (manager.go:145-166), not as
an `ExternalToolError`. -/
theorem C2_counterexample :
    penvStreamFail.streamErr1 ≠ none ∧
      (mgrPullImageWithProgress penvStreamFail).1 = .ok () := by decide

/-- C2 (amended): with the pipes created and the process started, a
stream-processing failure is only logged as a warning and does not affect
the result: the pull returns success exactly on zero process exit, and a
non-zero exit returns an `ExternalToolError` (whose captured output was
consumed by the stream processors and is not attached). -/
theorem C2_stream_failures_logged_not_fatal (penv : PullEnv)
    (hne : penv.imageName ≠ "")
    (hfmt : validateImageNameFmt penv.imageName = .ok ())
    (h1 : penv.stdoutPipe = .ok ()) (h2 : penv.stderrPipe = .ok ())
    (h3 : penv.startCmd = .ok ()) :
    (penv.waitResult = .ok () →
      (mgrPullImageWithProgress penv).1 = .ok () ∧
      (mgrPullImageWithProgress penv).2 =
        (penv.streamErr1.toList ++ penv.streamErr2.toList).map
          (fun e => s!"Stream processing warning: {e}")) ∧
    (∀ e, penv.waitResult = .error e →
      (mgrPullImageWithProgress penv).1 = .error (.docker "pull" e)) := by
  constructor
  · intro hw
    simp [mgrPullImageWithProgress, hne, hfmt, h1, h2, h3, hw]
  · intro e hw
    simp [mgrPullImageWithProgress, hne, hfmt, h1, h2, h3, hw]

/-- C2 witness: the amended behaviour at a concrete environment with a
stream failure and a zero exit. -/
theorem C2_witness :
    (mgrPullImageWithProgress penvStreamFail).1 = .ok () :=
  ((C2_stream_failures_logged_not_fatal penvStreamFail (by decide) (by decide)
      rfl rfl rfl).1 rfl).1

/-- C9: once the persisted id loads and validates, a deactivation whose
graceful stop fails but whose force stop succeeds returns overall success,
and an error result implies that both the graceful stop and the force stop
failed (app.go:662-691). -/
theorem C9_force_stop_fallback (env : AppEnv) (cid : String)
    (hfile : env.containerIDFileExists = true)
    (hload : env.loadContainerID = .ok cid)
    (hval : (mgrValidateContainerID env.denv cid).1 = .ok ()) :
    (∀ eg, (mgrStopContainer env.denv cid).1 = .error eg →
      (mgrForceStopContainer env.denv cid).1 = .ok () →
      (stopMoodle env).1 = .ok ()) ∧
    (∀ e, (stopMoodle env).1 = .error e →
      (mgrStopContainer env.denv cid).1 ≠ .ok () ∧
      (mgrForceStopContainer env.denv cid).1 ≠ .ok ()) := by
  have hv := mgrValidateContainerID_eq_ok hval
  have hfmt := mgrValidateContainerID_fmt_ok hval
  constructor
  · intro eg hg hf
    rcases hgp : mgrStopContainer env.denv cid with ⟨gr, tg⟩
    rw [hgp] at hg
    simp only at hg
    subst hg
    rcases hfp : mgrForceStopContainer env.denv cid with ⟨fr, tk⟩
    rw [hfp] at hf
    simp only at hf
    subst hf
    rcases hr : mgrIsContainerRunning env.denv cid with ⟨rb, tr⟩
    simp only [stopMoodle, hfile, hload, hv, hr, hgp, hfp]
    rcases rb with e0 | b
    · simp
    · cases b <;> simp
  · intro e he
    simp only [stopMoodle, hfile, hload, hv] at he
    rcases hr : mgrIsContainerRunning env.denv cid with ⟨rb, tr⟩
    rw [hr] at he
    rcases hg : mgrStopContainer env.denv cid with ⟨gr, tg⟩
    rcases hk : mgrForceStopContainer env.denv cid with ⟨kr, tk⟩
    rw [hg, hk] at he
    rcases rb with e0 | b
    · rcases gr with ge | gu
      · rcases kr with ke | ku
        · simp [hg, hk]
        · simp at he
      · simp at he
    · rcases b with _ | _
      · simp at he
      · rcases gr with ge | gu
        · rcases kr with ke | ku
          · simp [hg, hk]
          · simp at he
        · simp at he

/-- C9 witness: graceful stop fails, force stop succeeds, and deactivation
reports success at a concrete environment. -/
theorem C9_witness : (stopMoodle envStopFailsKillOk).1 = .ok () :=
  (C9_force_stop_fallback envStopFailsKillOk "0123456789abcdef0123456789abcdef"
      rfl rfl (by decide)).1
    (.docker "stop" "Error response from daemon: cannot stop container")
    (by decide) (by decide)

/-- C10: when the persisted id loads and validates and the running check
reports the container stopped, deactivation succeeds immediately, issuing no
stop and no kill command and leaving the persisted handle untouched
(app.go:662-671 return before any stop attempt; `StopMoodle` contains no
store write). -/
theorem C10_already_stopped_short_circuit (env : AppEnv) (cid : String)
    (hfile : env.containerIDFileExists = true)
    (hload : env.loadContainerID = .ok cid)
    (hval : (mgrValidateContainerID env.denv cid).1 = .ok ())
    (hrun : (mgrIsContainerRunning env.denv cid).1 = .ok false) :
    (stopMoodle env).1 = .ok () ∧
      Call.stop ∉ (stopMoodle env).2 ∧ Call.kill ∉ (stopMoodle env).2 ∧
      Call.saveContainerID ∉ (stopMoodle env).2 ∧
      Call.deleteContainerID ∉ (stopMoodle env).2 := by
  have hv := mgrValidateContainerID_eq_ok hval
  have hr := mgrIsContainerRunning_eq_ok hrun
  simp only [stopMoodle, hfile, hload, hv, hr]
  simp

/-- C10 witness: the short-circuit at a concrete environment reporting a
stopped container. -/
theorem C10_witness :
    (stopMoodle envStopped).1 = .ok () ∧
      Call.stop ∉ (stopMoodle envStopped).2 ∧ Call.kill ∉ (stopMoodle envStopped).2 ∧
      Call.saveContainerID ∉ (stopMoodle envStopped).2 ∧
      Call.deleteContainerID ∉ (stopMoodle envStopped).2 :=
  C10_already_stopped_short_circuit envStopped "0123456789abcdef0123456789abcdef"
    rfl rfl (by decide) (by decide)

/-- C8: a non-empty unit-state map in which every layer's status is
"Already exists" yields an overall percentage of exactly 100
(progress.go:339-342). -/
theorem C8_all_cached_is_100 (ls : List LayerProgress) (hne : ls ≠ [])
    (hall : ∀ l ∈ ls, l.status = "Already exists") :
    calculateOverallProgress ls = 100 := by
  have hc : cachedCount ls = ls.length :=
    List.countP_eq_length.mpr fun l hl => by simp [isCachedLayer, hall l hl]
  have hlen : ¬ ls.length = 0 := by simpa [List.length_eq_zero] using hne
  unfold calculateOverallProgress
  rw [if_neg hlen, if_pos hc]

/-- C8 witness: a one-layer all-cached map evaluates to 100. -/
theorem C8_witness :
    calculateOverallProgress [⟨"4f4fb700ef54", "Already exists", 1, 1, 1, 1⟩] = 100 :=
  C8_all_cached_is_100 [⟨"4f4fb700ef54", "Already exists", 1, 1, 1, 1⟩]
    (by decide) (by decide)

/-- C3 counterexample: the state reached from the empty map by one decoded
record `{"status":"Downloading","id":"8cc6894b165e",`
`"progressDetail":{"current":-100,"total":100}}` is recomputed to the
percentage -60, which lies outside [0,100], differs from the sentinel -1,
and is what is delivered to every observer: the code clamps only the upper
bound (progress.go:412-414). -/
theorem C3_counterexample :
    (processEvent (applyEvents []) ⟨"Downloading", "8cc6894b165e", "", -100, 100⟩).2 =
        some (-60, "Downloading layers (0/1 completed)") ∧
      calculateOverallProgress
          (processEvent (applyEvents []) ⟨"Downloading", "8cc6894b165e", "", -100, 100⟩).1 =
        -60 ∧
      ¬ (0 ≤ (-60 : ℚ) ∧ (-60 : ℚ) ≤ 100) ∧ (-60 : ℚ) ≠ -1 := by
  refine ⟨?_, ?_, by norm_num, by norm_num⟩ <;>
    norm_num +decide [applyEvents, processEvent, updateLayer, calculateOverallProgress,
      getOverallStatus, cachedCount, completedCount, meaningfulCount, completedNoByteCount,
      actualWorkLayers, totalDownloadBytes, currentDownloadBytes, totalExtractBytes,
      currentExtractBytes, blendedProgress, byteProgress, isCachedLayer, isCompletedLayer,
      hasMeaningfulDownload, hasMeaningfulExtract, countsBytesDl, countsBytesEx,
      List.countP, List.countP.go, cond, beq_eq_decide]

/-- C3 (amended): the aggregate percentage never exceeds 100 in any branch
(the byte-weighted result is clamped above, the count-based result is below
100 by construction); and whenever every unit's byte fields are nonnegative
— as holds for every plain-text-parsed update — the percentage also lies in
[0,100].  A structured record carrying a negative `current` drives the
byte-weighted branch below 0, because the code clamps only the upper bound;
status-only lines use the sentinel -1 separately. -/
theorem C3_percentage_le_100_and_nonneg_on_nonneg_data :
    (∀ ls : List LayerProgress, calculateOverallProgress ls ≤ 100) ∧
    (∀ ls : List LayerProgress,
      (∀ l ∈ ls, 0 ≤ l.downloadCurrent ∧ 0 ≤ l.downloadTotal ∧
          0 ≤ l.extractCurrent ∧ 0 ≤ l.extractTotal) →
      0 ≤ calculateOverallProgress ls) :=
  ⟨calculateOverallProgress_le_100, calculateOverallProgress_nonneg⟩

/-- C3 witness: both bounds at a concrete one-layer downloading state. -/
theorem C3_witness :
    0 ≤ calculateOverallProgress [⟨"8cc6894b165e", "Downloading", 50, 100, 0, 0⟩] ∧
      calculateOverallProgress [⟨"8cc6894b165e", "Downloading", 50, 100, 0, 0⟩] ≤ 100 :=
  ⟨C3_percentage_le_100_and_nonneg_on_nonneg_data.2
      [⟨"8cc6894b165e", "Downloading", 50, 100, 0, 0⟩] (by decide),
    C3_percentage_le_100_and_nonneg_on_nonneg_data.1
      [⟨"8cc6894b165e", "Downloading", 50, 100, 0, 0⟩]⟩

/-- C4: in any unit-state map, increasing one unit's download current
(when its download total is meaningful, i.e. greater than 1) or its extract
current (when its extract total is greater than 1), holding everything else
fixed, never decreases the overall percentage (progress.go:289-422). -/
theorem C4_increasing_current_never_decreases_progress
    (pre post : List LayerProgress) (u u' : LayerProgress) (c' : Int)
    (h : (1 < u.downloadTotal ∧ u' = { u with downloadCurrent := c' } ∧
            u.downloadCurrent ≤ c')
       ∨ (1 < u.extractTotal ∧ u' = { u with extractCurrent := c' } ∧
            u.extractCurrent ≤ c')) :
    calculateOverallProgress (pre ++ u :: post) ≤
      calculateOverallProgress (pre ++ u' :: post) := by
  rcases h with ⟨htot, rfl, hle⟩ | ⟨htot, rfl, hle⟩
  · apply calculateOverallProgress_mono_currents
    · simp
    · simp [cachedCount, List.countP_append, List.countP_cons, isCachedLayer, isCompletedLayer, hasMeaningfulDownload, hasMeaningfulExtract, countsBytesDl, countsBytesEx]
    · simp [completedCount, List.countP_append, List.countP_cons, isCachedLayer, isCompletedLayer, hasMeaningfulDownload, hasMeaningfulExtract, countsBytesDl, countsBytesEx]
    · simp [meaningfulCount, List.countP_append, List.countP_cons, isCachedLayer, isCompletedLayer, hasMeaningfulDownload, hasMeaningfulExtract, countsBytesDl, countsBytesEx]
    · simp [completedNoByteCount, List.countP_append, List.countP_cons, isCachedLayer, isCompletedLayer, hasMeaningfulDownload, hasMeaningfulExtract, countsBytesDl, countsBytesEx]
    · simp [totalDownloadBytes, List.map_append, List.sum_append, isCachedLayer, isCompletedLayer, hasMeaningfulDownload, hasMeaningfulExtract, countsBytesDl, countsBytesEx]
    · simp [totalExtractBytes, List.map_append, List.sum_append, isCachedLayer, isCompletedLayer, hasMeaningfulDownload, hasMeaningfulExtract, countsBytesDl, countsBytesEx]
    · simp only [currentDownloadBytes, List.map_append, List.sum_append,
        List.map_cons, List.sum_cons]
      have hcond : countsBytesDl { u with downloadCurrent := c' } = countsBytesDl u := by
        simp [countsBytesDl, isCachedLayer, hasMeaningfulDownload]
      rw [hcond]
      apply add_le_add_left
      apply add_le_add_right
      split_ifs
      · exact hle
      · exact le_refl 0
    · apply le_of_eq
      simp [currentExtractBytes, List.map_append, List.sum_append, isCachedLayer, isCompletedLayer, hasMeaningfulDownload, hasMeaningfulExtract, countsBytesDl, countsBytesEx]
  · apply calculateOverallProgress_mono_currents
    · simp
    · simp [cachedCount, List.countP_append, List.countP_cons, isCachedLayer, isCompletedLayer, hasMeaningfulDownload, hasMeaningfulExtract, countsBytesDl, countsBytesEx]
    · simp [completedCount, List.countP_append, List.countP_cons, isCachedLayer, isCompletedLayer, hasMeaningfulDownload, hasMeaningfulExtract, countsBytesDl, countsBytesEx]
    · simp [meaningfulCount, List.countP_append, List.countP_cons, isCachedLayer, isCompletedLayer, hasMeaningfulDownload, hasMeaningfulExtract, countsBytesDl, countsBytesEx]
    · simp [completedNoByteCount, List.countP_append, List.countP_cons, isCachedLayer, isCompletedLayer, hasMeaningfulDownload, hasMeaningfulExtract, countsBytesDl, countsBytesEx]
    · simp [totalDownloadBytes, List.map_append, List.sum_append, isCachedLayer, isCompletedLayer, hasMeaningfulDownload, hasMeaningfulExtract, countsBytesDl, countsBytesEx]
    · simp [totalExtractBytes, List.map_append, List.sum_append, isCachedLayer, isCompletedLayer, hasMeaningfulDownload, hasMeaningfulExtract, countsBytesDl, countsBytesEx]
    · apply le_of_eq
      simp [currentDownloadBytes, List.map_append, List.sum_append, isCachedLayer, isCompletedLayer, hasMeaningfulDownload, hasMeaningfulExtract, countsBytesDl, countsBytesEx]
    · simp only [currentExtractBytes, List.map_append, List.sum_append,
        List.map_cons, List.sum_cons]
      have hcond : countsBytesEx { u with extractCurrent := c' } = countsBytesEx u := by
        simp [countsBytesEx, isCachedLayer, hasMeaningfulExtract]
      rw [hcond]
      apply add_le_add_left
      apply add_le_add_right
      split_ifs
      · exact hle
      · exact le_refl 0

/-- C4 witness: increasing the download current of a meaningful-total layer
from 10 to 20 does not decrease the aggregate. -/
theorem C4_witness :
    calculateOverallProgress [⟨"8cc6894b165e", "Downloading", 10, 100, 0, 0⟩] ≤
      calculateOverallProgress [⟨"8cc6894b165e", "Downloading", 20, 100, 0, 0⟩] :=
  C4_increasing_current_never_decreases_progress [] []
    ⟨"8cc6894b165e", "Downloading", 10, 100, 0, 0⟩
    ⟨"8cc6894b165e", "Downloading", 20, 100, 0, 0⟩ 20
    (.inl ⟨by decide, rfl, by decide⟩)

/-- C5: `ExtractCredentials` of the empty text yields both fields empty and
incomplete; and for every text consisting of lines that include the exact
password line and the exact endpoint line (in either order, the remaining
lines unrelated, i.e. containing no marker phrase), it extracts
`Sw0rdFish!` and `http://localhost:8080` and reports complete
(logs.go:21-49). -/
theorem C5_extract_behaviour :
    (ExtractCredentials "" = ⟨"", ""⟩ ∧ IsComplete (ExtractCredentials "") = false) ∧
    (∀ ls : List (List Char), pwLine ∈ ls → urlLine ∈ ls →
      (∀ l ∈ ls, l = pwLine ∨ l = urlLine ∨ Unrelated l) →
      ExtractCredentials (String.mk (joinLines ls)) =
          ⟨"Sw0rdFish!", "http://localhost:8080"⟩ ∧
        IsComplete (ExtractCredentials (String.mk (joinLines ls))) = true) := by
  constructor
  · exact ⟨by decide, by decide⟩
  intro ls hpw hurl hun
  have hpwscan : scanFor [pwMarker1, pwMarker2] (joinLines ls) = some ("Sw0rdFish!".data) := by
    apply scanFor_through [pwMarker1, pwMarker2] pwLine ("Sw0rdFish!".data)
      (by decide) scanFor_pw_hit ls hpw
    intro l hl
    rcases hun l hl with rfl | rfl | h
    · exact .inl rfl
    · refine .inr fun m hm => ?_
      simp only [List.mem_cons, List.not_mem_nil, or_false] at hm
      rcases hm with rfl | rfl
      · decide
      · decide
    · refine .inr fun m hm => ?_
      simp only [List.mem_cons, List.not_mem_nil, or_false] at hm
      rcases hm with rfl | rfl
      · exact h.1
      · exact h.2.1
  have hurlscan : scanFor [urlMarker] (joinLines ls) = some ("http://localhost:8080".data) := by
    apply scanFor_through [urlMarker] urlLine ("http://localhost:8080".data)
      (by decide) scanFor_url_hit ls hurl
    intro l hl
    rcases hun l hl with rfl | rfl | h
    · refine .inr fun m hm => ?_
      simp only [List.mem_cons, List.not_mem_nil, or_false] at hm
      subst hm
      decide
    · exact .inl rfl
    · refine .inr fun m hm => ?_
      simp only [List.mem_cons, List.not_mem_nil, or_false] at hm
      subst hm
      exact h.2.2
  have hx : ExtractCredentials (String.mk (joinLines ls)) =
      ⟨"Sw0rdFish!", "http://localhost:8080"⟩ := by
    unfold ExtractCredentials
    rw [show (String.mk (joinLines ls)).data = joinLines ls from rfl, hpwscan, hurlscan]
    decide
  refine ⟨hx, ?_⟩
  rw [hx]
  decide

/-- C5 witness: extraction over a concrete four-line log. -/
theorem C5_witness :
    ExtractCredentials (String.mk (joinLines
        ["Moodle setup in progress".data, pwLine, "intervening noise".data, urlLine])) =
        ⟨"Sw0rdFish!", "http://localhost:8080"⟩ ∧
      IsComplete (ExtractCredentials (String.mk (joinLines
        ["Moodle setup in progress".data, pwLine, "intervening noise".data, urlLine]))) = true :=
  C5_extract_behaviour.2
    ["Moodle setup in progress".data, pwLine, "intervening noise".data, urlLine]
    (by decide) (by decide) (by decide)

/-- C6 counterexample: completeness-monotonicity fails on the code as
stated: "Password: x" is contained in "Password:\x0b\nPassword: x", yet the
first yields a non-empty secret and the second an empty one — the regexp's
`\s` class excludes the vertical tab, so the first match captures "\x0b",
which `strings.TrimSpace` then erases. -/
theorem C6_counterexample :
    "Password: x".data <:+: "Password:\x0b\nPassword: x".data ∧
      (ExtractCredentials "Password: x").Password ≠ "" ∧
      (ExtractCredentials "Password:\x0b\nPassword: x").Password = "" :=
  ⟨by decide, by decide, by decide⟩

/-- C6 (amended): the extractor is monotone in completeness on every pair
t1 ⊆ t2 in which t2 contains no whitespace character outside the regexp
`\s` class (no vertical tab, NBSP, NEL or Unicode spaces): each field
non-empty on t1 stays non-empty on t2, hence completeness is preserved.
Without that proviso a superset can capture an all-whitespace match that
trims to empty (see the counterexample). -/
theorem C6_superset_monotone_no_exotic_space (t1 t2 : String)
    (hsub : t1.data <:+: t2.data)
    (hclean : ∀ c ∈ t2.data, goSpace c = true → isWS c = true) :
    ((ExtractCredentials t1).Password ≠ "" → (ExtractCredentials t2).Password ≠ "") ∧
    ((ExtractCredentials t1).URL ≠ "" → (ExtractCredentials t2).URL ≠ "") ∧
    (IsComplete (ExtractCredentials t1) = true → IsComplete (ExtractCredentials t2) = true) := by
  have hpw : (ExtractCredentials t1).Password ≠ "" → (ExtractCredentials t2).Password ≠ "" :=
    fun h => scanField_mono [pwMarker1, pwMarker2]
      (by decide) (by decide) (by decide) t1.data t2.data hsub hclean h
  have hurl : (ExtractCredentials t1).URL ≠ "" → (ExtractCredentials t2).URL ≠ "" :=
    fun h => scanField_mono [urlMarker]
      (by decide) (by decide) (by decide) t1.data t2.data hsub hclean h
  refine ⟨hpw, hurl, ?_⟩
  intro hic
  have h1 := hic
  rw [IsComplete, Bool.and_eq_true, bne_iff_ne, bne_iff_ne] at h1
  rw [IsComplete, Bool.and_eq_true, bne_iff_ne, bne_iff_ne]
  exact ⟨hpw h1.1, hurl h1.2⟩

/-- C6 witness: the amended monotonicity at a concrete pair of texts. -/
theorem C6_witness :
    (ExtractCredentials "container log\nPassword: Sw0rdFish!\nmore log").Password ≠ "" :=
  (C6_superset_monotone_no_exotic_space "Password: Sw0rdFish!"
      "container log\nPassword: Sw0rdFish!\nmore log"
      (by decide) (by decide)).1 (by decide)

end MoodleManager
